import Mathlib

/-!
Verification of the market-regime classification core
(`backend/services/market_regime_service.py`).

Floats are modelled as rationals (`ℚ`); `math.log` and `math.exp` are kept
abstract as function parameters (the classifier only compares against their
results, never inspects them).  Python's `round(x, n)` (round half to even)
is modelled exactly on rationals.  Database reads and collaborator calls of
the orchestrator become explicit inputs.  The `debug` payload of the result
dict (raw echoes of the inputs, used only for logging) is not modelled.
-/

/-- Regime type constant, as in the source. -/
def REGIME_STOP_HUNT : String := "stop_hunt"

/-- Regime type constant, as in the source. -/
def REGIME_ABSORPTION : String := "absorption"

/-- Regime type constant, as in the source. -/
def REGIME_BREAKOUT : String := "breakout"

/-- Regime type constant, as in the source. -/
def REGIME_CONTINUATION : String := "continuation"

/-- Regime type constant, as in the source. -/
def REGIME_EXHAUSTION : String := "exhaustion"

/-- Regime type constant, as in the source. -/
def REGIME_TRAP : String := "trap"

/-- Regime type constant, as in the source. -/
def REGIME_NOISE : String := "noise"

/-- Direction constant, as in the source. -/
def DIRECTION_BULLISH : String := "bullish"

/-- Direction constant, as in the source. -/
def DIRECTION_BEARISH : String := "bearish"

/-- Direction constant, as in the source. -/
def DIRECTION_NEUTRAL : String := "neutral"

/-- The threshold record `MarketRegimeConfig` (database model): exactly the
fields `classify_regime` reads. -/
structure MarketRegimeConfig where
  breakout_cvd_z : ℚ
  breakout_price_atr : ℚ
  breakout_oi_z : ℚ
  breakout_taker_high : ℚ
  breakout_taker_low : ℚ
  absorption_price_atr : ℚ
  trap_oi_z : ℚ
  stop_hunt_range_atr : ℚ
  stop_hunt_close_atr : ℚ
  exhaustion_rsi_high : ℚ
  exhaustion_rsi_low : ℚ

/-- Python `round` to an integer: round half to even (banker's rounding). -/
def round_half_even (x : ℚ) : ℤ :=
  let n := ⌊x⌋
  let f := x - n
  if f < 1/2 then n
  else if 1/2 < f then n + 1
  else if n % 2 = 0 then n else n + 1

/-- Python `round(x, digits)` on our rational model of floats. -/
def round_py (x : ℚ) (digits : ℕ) : ℚ :=
  (round_half_even (x * 10 ^ digits) : ℚ) / 10 ^ digits

/-- `calculate_direction`: majority vote of the signs of the three signals. -/
def calculate_direction (cvd_ratio taker_log_ratio price_atr : ℚ) : String :=
  let votes : ℤ :=
    (if cvd_ratio > 0 then 1 else if cvd_ratio < 0 then -1 else 0) +
    (if taker_log_ratio > 0 then 1 else if taker_log_ratio < 0 then -1 else 0) +
    (if price_atr > 0 then 1 else if price_atr < 0 then -1 else 0)
  if votes ≥ 2 then DIRECTION_BULLISH
  else if votes ≤ -2 then DIRECTION_BEARISH
  else DIRECTION_NEUTRAL

/-- `calculate_confidence`: weighted sum of clamped magnitudes, clamped to [0,1]. -/
def calculate_confidence (cvd_ratio taker_log_ratio oi_delta price_atr : ℚ) : ℚ :=
  let score :=
    3/10 * min |cvd_ratio| (3/10) / (3/10) +
    2/10 * min |taker_log_ratio| 1 / 1 +
    2/10 * min |oi_delta| 5 / 5 +
    3/10 * min |price_atr| 2 / 2
  max 0 (min 1 score)

/-- `calculate_pattern_penalty`: regime-specific checklist, each miss subtracts
a fixed amount from 1.0, floored at 0.70. -/
def calculate_pattern_penalty (regime : String)
    (cvd_ratio price_atr oi_delta rsi price_range_atr : ℚ) : ℚ :=
  let cvd_weak := |cvd_ratio| < 3/100
  let price_strong := |price_atr| > 1/2
  let rsi_extreme := rsi > 70 ∨ rsi < 30
  let range_large := price_range_atr > 1
  let body_ratio := if price_range_atr > 0 then |price_atr| / price_range_atr else 1
  let cvd_price_aligned := (cvd_ratio > 0 ∧ price_atr > 0) ∨ (cvd_ratio < 0 ∧ price_atr < 0)
  let score : ℚ :=
    if regime = REGIME_BREAKOUT then
      1 - (if cvd_price_aligned then 0 else 12/100) - (if cvd_weak then 8/100 else 0)
    else if regime = REGIME_ABSORPTION then
      1 - (if price_strong then 10/100 else 0) - (if cvd_weak then 8/100 else 0)
    else if regime = REGIME_CONTINUATION then
      1 - (if cvd_price_aligned then 0 else 15/100)
    else if regime = REGIME_EXHAUSTION then
      1 - (if rsi_extreme then 0 else 10/100)
    else if regime = REGIME_TRAP then
      1 - (if cvd_price_aligned then 12/100 else 0)
    else if regime = REGIME_STOP_HUNT then
      1 - (if range_large then 0 else 10/100) - (if body_ratio > 1/2 then 8/100 else 0)
    else if regime = REGIME_NOISE then
      1 - 15/100
    else 1
  max (70/100) score

/-- `calculate_direction_penalty`: coarse signed directions with deadbands,
penalties for contradiction/unexpected alignment. -/
def calculate_direction_penalty (regime : String)
    (cvd_ratio price_atr taker_log_ratio : ℚ) : ℚ :=
  let cvd_dir : ℤ := if cvd_ratio > 2/100 then 1 else if cvd_ratio < -2/100 then -1 else 0
  let price_dir : ℤ := if price_atr > 1/10 then 1 else if price_atr < -1/10 then -1 else 0
  let taker_dir : ℤ := if taker_log_ratio > 15/100 then 1 else if taker_log_ratio < -15/100 then -1 else 0
  let dirs := ([cvd_dir, price_dir, taker_dir]).filter (fun d => d ≠ 0)
  if dirs.length < 2 then 1
  else
    let all_aligned : Bool := dirs.all (fun d => d == dirs.head?.getD 0)
    let has_contradiction : Bool := dirs.contains 1 && dirs.contains (-1)
    if regime = REGIME_BREAKOUT ∨ regime = REGIME_CONTINUATION then
      if has_contradiction then 85/100 else 1
    else if regime = REGIME_ABSORPTION ∨ regime = REGIME_TRAP then
      if all_aligned then 88/100 else 1
    else if regime = REGIME_NOISE then 90/100
    else 1

/-- `classify_regime`: the priority-ordered rule chain.  `mathlog` stands for
`math.log`, applied only to the configured taker thresholds. -/
def classify_regime (mathlog : ℚ → ℚ)
    (cvd_ratio taker_log_ratio oi_delta price_atr rsi price_range_atr : ℚ)
    (config : MarketRegimeConfig) : String × String :=
  let cvd_strong := config.breakout_cvd_z * (1/10)
  let cvd_weak := cvd_strong / 3
  let price_breakout := config.breakout_price_atr + 2/10
  let price_move := config.absorption_price_atr
  let oi_increase := config.breakout_oi_z
  let oi_decrease := config.trap_oi_z
  let taker_high_log :=
    if config.breakout_taker_high > 0 then mathlog config.breakout_taker_high else 35/10
  let taker_low_log :=
    if config.breakout_taker_low > 0 then mathlog config.breakout_taker_low else -(35/10)
  let is_taker_extreme := taker_log_ratio > taker_high_log ∨ taker_log_ratio < taker_low_log
  let cvd_price_aligned := (cvd_ratio > 0 ∧ price_atr > 0) ∨ (cvd_ratio < 0 ∧ price_atr < 0)
  if price_range_atr > config.stop_hunt_range_atr ∧ |price_atr| < config.stop_hunt_close_atr then
    (REGIME_STOP_HUNT, "Price spiked but closed near open")
  else
    let is_cvd_strong := |cvd_ratio| > cvd_strong
    let is_price_breakout := |price_atr| > price_breakout
    let is_oi_increase := oi_delta > oi_increase
    let body_ratio := if price_range_atr > 0 then |price_atr| / price_range_atr else 1
    let is_solid_move := body_ratio > 4/10
    if is_cvd_strong ∧ is_price_breakout ∧ cvd_price_aligned ∧ is_solid_move ∧
        (is_taker_extreme ∨ is_oi_increase) then
      (REGIME_BREAKOUT,
        (if cvd_ratio > 0 then "Bullish" else "Bearish") ++ " breakout with aligned signals")
    else
      let is_oi_decrease := oi_delta < oi_decrease
      let rsi_extreme := rsi > config.exhaustion_rsi_high ∨ rsi < config.exhaustion_rsi_low
      if is_cvd_strong ∧ is_oi_decrease ∧ rsi_extreme then
        (REGIME_EXHAUSTION, "Trend exhaustion at RSI extreme")
      else if is_cvd_strong ∧ is_oi_decrease ∧ |price_atr| < config.stop_hunt_close_atr then
        (REGIME_TRAP, "Strong flow but positions closing with reversal (trap)")
      else
        let is_price_move := |price_atr| > price_move
        if is_cvd_strong ∧ ¬ is_price_move then
          (REGIME_ABSORPTION, "Strong flow absorbed without price movement")
        else
          let is_cvd_weak := |cvd_ratio| > cvd_weak
          if is_cvd_weak ∧ is_price_move ∧ cvd_price_aligned then
            (REGIME_CONTINUATION,
              (if cvd_ratio > 0 then "Bullish" else "Bearish") ++ " trend continuation")
          else (REGIME_NOISE, "No clear market regime detected")

/-! ### Candles, price metrics and the orchestrator -/

/-- One OHLC candle, as the dicts produced by the K-line fetchers
(`timestamp`, `open`, `high`, `low`, `close`, `volume`; `open` is a Lean
keyword, hence the trailing underscore). -/
structure Candle where
  timestamp : ℤ
  open_ : ℚ
  high : ℚ
  low : ℚ
  close : ℚ
  volume : ℚ
deriving DecidableEq

/-- Output of `calculate_price_metrics`. -/
structure PriceMetrics where
  price_atr : ℚ
  price_range_atr : ℚ
  rsi : ℚ
deriving DecidableEq

/-- `calculate_price_metrics`.  The external indicator library call
`calculate_indicators(kline_data, ["ATR14", "RSI14"])` is abstracted as the
function parameter `calculate_indicators`, returning the ATR14 and RSI14
series.  `list[-1] if list else default` becomes `getLast?.getD default`;
the `getD` on the latest candle is unreachable (the guard keeps the list
non-empty). -/
def calculate_price_metrics (calculate_indicators : List Candle → List ℚ × List ℚ)
    (kline_data : List Candle) : PriceMetrics :=
  if kline_data.length < 15 then ⟨0, 0, 50⟩
  else
    let indicators := calculate_indicators kline_data
    let atr_values := indicators.1
    let rsi_values := indicators.2
    let atr := atr_values.getLast?.getD 0
    let rsi := rsi_values.getLast?.getD 50
    if atr > 0 ∧ 1 ≤ kline_data.length then
      let latest := kline_data.getLast?.getD ⟨0, 0, 0, 0, 0, 0⟩
      ⟨(latest.close - latest.open_) / atr, (latest.high - latest.low) / atr, rsi⟩
    else ⟨0, 0, rsi⟩

/-- The "CVD" entry of the flow-indicator response, read with
`.get("current", 0)`.  An absent (or empty, hence equally falsy) entry is
modelled as `none` at the `FlowData` level. -/
structure CvdEntry where
  current : Option ℚ
deriving DecidableEq

/-- The "TAKER" entry of the flow-indicator response, read with
`.get("buy", 0)` and `.get("sell", 0)`. -/
structure TakerEntry where
  buy : Option ℚ
  sell : Option ℚ
deriving DecidableEq

/-- The "OI_DELTA" entry of the flow-indicator response, read with
`.get("current", 0)`. -/
structure OiEntry where
  current : Option ℚ
deriving DecidableEq

/-- The response of `get_flow_indicators_for_prompt(db, symbol, timeframe,
["CVD", "TAKER", "OI_DELTA"], timestamp_ms)` (external collaborator). -/
structure FlowData where
  CVD : Option CvdEntry
  TAKER : Option TakerEntry
  OI_DELTA : Option OiEntry
deriving DecidableEq

/-- The rounded indicator block of a successful classification result. -/
structure RegimeIndicators where
  cvd_ratio : ℚ
  oi_delta : ℚ
  taker_ratio : ℚ
  price_atr : ℚ
  rsi : ℚ
deriving DecidableEq

/-- The classification result: regime, direction, confidence, reason and
the rounded indicator block (`none` on the error paths, which return `{}`).
The `debug` echo of raw inputs is not modelled. -/
structure RegimeResult where
  regime : String
  direction : String
  confidence : ℚ
  reason : String
  indicators : Option RegimeIndicators
deriving DecidableEq

/-- CVD ratio extraction in `get_market_regime`:
`cvd_current / total_notional if total_notional > 0 else 0.0`. -/
def cvd_ratio_of (cvd_current taker_buy taker_sell : ℚ) : ℚ :=
  if taker_buy + taker_sell > 0 then cvd_current / (taker_buy + taker_sell) else 0

/-- Taker log-ratio extraction in `get_market_regime`:
`math.log(taker_buy / taker_sell)` when both sides are strictly positive,
else `0.0`. -/
def taker_log_ratio_of (mathlog : ℚ → ℚ) (taker_buy taker_sell : ℚ) : ℚ :=
  if taker_buy > 0 ∧ taker_sell > 0 then mathlog (taker_buy / taker_sell) else 0

/-- The computing tail of `get_market_regime`: price metrics, classification,
direction, base confidence, the two penalty multipliers, and the rounded
result assembly. -/
def regime_pipeline (mathlog mathexp : ℚ → ℚ)
    (calculate_indicators : List Candle → List ℚ × List ℚ)
    (config : MarketRegimeConfig) (cvd_ratio taker_log_ratio oi_delta : ℚ)
    (kline_data : List Candle) : RegimeResult :=
  let pm := calculate_price_metrics calculate_indicators kline_data
  let price_atr := pm.price_atr
  let price_range_atr := pm.price_range_atr
  let rsi := pm.rsi
  let rr := classify_regime mathlog cvd_ratio taker_log_ratio oi_delta price_atr rsi
    price_range_atr config
  let direction := calculate_direction cvd_ratio taker_log_ratio price_atr
  let base_confidence := calculate_confidence cvd_ratio taker_log_ratio oi_delta price_atr
  let pattern_penalty := calculate_pattern_penalty rr.1 cvd_ratio price_atr oi_delta rsi
    price_range_atr
  let direction_penalty := calculate_direction_penalty rr.1 cvd_ratio price_atr taker_log_ratio
  let confidence := base_confidence * pattern_penalty * direction_penalty
  { regime := rr.1, direction := direction, confidence := round_py confidence 3,
    reason := rr.2,
    indicators := some
      { cvd_ratio := round_py cvd_ratio 4, oi_delta := round_py oi_delta 3,
        taker_ratio := round_py (mathexp taker_log_ratio) 3,
        price_atr := round_py price_atr 3, rsi := round_py rsi 1 } }

/-- `get_market_regime`, with its collaborators as explicit inputs: `config`
is the result of the config lookup, `timeframe_supported` whether the
timeframe is a key of TIMEFRAME_MS (external module), `flow_data` the
flow-indicator response, `kline_data` the candles `fetch_kline_data`
returned. -/
def get_market_regime (mathlog mathexp : ℚ → ℚ)
    (calculate_indicators : List Candle → List ℚ × List ℚ)
    (config : Option MarketRegimeConfig) (timeframe : String)
    (timeframe_supported : Bool) (flow_data : FlowData)
    (kline_data : List Candle) : RegimeResult :=
  match config with
  | none =>
    { regime := REGIME_NOISE, direction := DIRECTION_NEUTRAL, confidence := 0,
      reason := "No regime config found", indicators := none }
  | some cfg =>
    if timeframe_supported then
      match flow_data.CVD, flow_data.TAKER with
      | some cvd_data, some taker_data =>
        let cvd_current := cvd_data.current.getD 0
        let taker_buy := taker_data.buy.getD 0
        let taker_sell := taker_data.sell.getD 0
        let cvd_ratio := cvd_ratio_of cvd_current taker_buy taker_sell
        let taker_log_ratio := taker_log_ratio_of mathlog taker_buy taker_sell
        let oi_delta := match flow_data.OI_DELTA with
          | some oi_delta_data => oi_delta_data.current.getD 0
          | none => 0
        regime_pipeline mathlog mathexp calculate_indicators cfg cvd_ratio
          taker_log_ratio oi_delta kline_data
      | _, _ =>
        { regime := REGIME_NOISE, direction := DIRECTION_NEUTRAL, confidence := 0,
          reason := "Insufficient market flow data", indicators := none }
    else
      { regime := REGIME_NOISE, direction := DIRECTION_NEUTRAL, confidence := 0,
        reason := "Unsupported timeframe: " ++ timeframe, indicators := none }

/-! ### The interval bucketer (`fetch_ohlc_from_flow`) -/

/-- A raw 15-second flow row (`MarketTradesAggregated`), as read by
`fetch_ohlc_from_flow`.  Numeric columns are nullable; Python truthiness
(`x if x else 0`, `x or 0`) treats both `None` and `0` as falsy, which on
these columns coincides with `Option.getD 0`. -/
structure FlowRecord where
  timestamp : ℤ
  vwap : Option ℚ
  high_price : Option ℚ
  low_price : Option ℚ
  taker_buy_notional : Option ℚ
  taker_sell_notional : Option ℚ
deriving DecidableEq

/-- Python truthiness of a nullable numeric column. -/
def truthy (x : Option ℚ) : Bool := x.getD 0 ≠ 0

/-- Stable insertion into a timestamp-sorted list. -/
def insertByTs (r : FlowRecord) : List FlowRecord → List FlowRecord
  | [] => [r]
  | x :: xs => if r.timestamp ≤ x.timestamp then r :: x :: xs else x :: insertByTs r xs

/-- Stable sort by timestamp: Python's `sort(key=lambda x: x.timestamp)` and
the `ORDER BY timestamp` of the query. -/
def sortByTs : List FlowRecord → List FlowRecord
  | [] => []
  | x :: xs => insertByTs x (sortByTs xs)

/-- Python `max(gen, default=0)` over a list of values. -/
def listMax (l : List ℚ) : ℚ :=
  match l with
  | [] => 0
  | x :: xs => xs.foldl max x

/-- Python `min(gen, default=0)` over a list of values. -/
def listMin (l : List ℚ) : ℚ :=
  match l with
  | [] => 0
  | x :: xs => xs.foldl min x

/-- Placeholder row (unreachable: buckets are aggregated only when
non-empty). -/
def dummyRecord : FlowRecord := ⟨0, none, none, none, none, none⟩

/-- Aggregation of one non-empty bucket into an OHLC candle: sort by
timestamp, open/close from the first/last row's vwap, high/low over the
truthy per-row extremes, volume as the summed buy+sell notional. -/
def aggregateBucket (bucket_start : ℤ) (bucket_records : List FlowRecord) : Candle :=
  let sorted := sortByTs bucket_records
  let first_rec := sorted.head?.getD dummyRecord
  let last_rec := sorted.getLast?.getD dummyRecord
  { timestamp := Int.fdiv bucket_start 1000,
    open_ := first_rec.vwap.getD 0,
    high := listMax ((sorted.filter (fun r => truthy r.high_price)).map
      (fun r => r.high_price.getD 0)),
    low := listMin ((sorted.filter (fun r => truthy r.low_price)).map
      (fun r => r.low_price.getD 0)),
    close := last_rec.vwap.getD 0,
    volume := (sorted.map
      (fun r => r.taker_buy_notional.getD 0 + r.taker_sell_notional.getD 0)).sum }

/-- The aggregation loop of `fetch_ohlc_from_flow` over bucket indexes
`n-1, …, 0` (oldest bucket first): a record belongs to bucket
`(end_ts - timestamp) // period_ms`; empty buckets are omitted. -/
def ohlcBuckets (queried : List FlowRecord) (end_ts period_ms : ℤ) : ℕ → List Candle
  | 0 => []
  | n + 1 =>
    let bucket_start := end_ts - ((n : ℤ) + 1) * period_ms
    let bucket_records := queried.filter
      (fun r => decide (Int.fdiv (end_ts - r.timestamp) period_ms = (n : ℤ)))
    (if bucket_records.isEmpty then []
      else [aggregateBucket bucket_start bucket_records]) ++
      ohlcBuckets queried end_ts period_ms n

/-- `fetch_ohlc_from_flow`: the database query (rows with
`start_ts ≤ timestamp < end_ts`, ordered by timestamp) applied to the table
contents `records`, then per-period bucketing anchored at `current_time_ms`.
Records with bucket index ≥ limit are skipped, which the per-index filters
of `ohlcBuckets` realise. -/
def fetch_ohlc_from_flow (records : List FlowRecord) (period_ms : ℤ)
    (limit : ℕ) (current_time_ms : ℤ) : List Candle :=
  let end_ts := current_time_ms
  let start_ts := current_time_ms - (limit : ℤ) * period_ms
  let queried := sortByTs (records.filter
    (fun r => decide (start_ts ≤ r.timestamp ∧ r.timestamp < end_ts)))
  ohlcBuckets queried end_ts period_ms limit

/-! ### The hybrid real-time merge (`_fetch_kline_with_realtime`) -/

/-- The history window requested from the store:
`db_limit = max(limit - 5, limit)` (Python ints: this equals `limit`). -/
def db_limit (limit : ℤ) : ℤ := max (limit - 5) limit

/-- One assignment `db_data[c.timestamp] = c` on the timestamp-keyed dict,
modelled as an ordered key-value list: replace the entry with the same key in
place (Python dicts keep the original position), else append. -/
def upsertByTs (m : List Candle) (c : Candle) : List Candle :=
  if m.any (fun x => x.timestamp == c.timestamp) then
    m.map (fun x => if x.timestamp == c.timestamp then c else x)
  else m ++ [c]

/-- Stable insertion into a timestamp-sorted candle list. -/
def insertCandleByTs (c : Candle) : List Candle → List Candle
  | [] => [c]
  | x :: xs => if c.timestamp ≤ x.timestamp then c :: x :: xs else x :: insertCandleByTs c xs

/-- `sorted(values, key=lambda x: x["timestamp"])` (stable). -/
def sortCandles : List Candle → List Candle
  | [] => []
  | x :: xs => insertCandleByTs x (sortCandles xs)

/-- Python `lst[-limit:]` (note `lst[-0:]` is the whole list). -/
def pySliceLast (l : List Candle) (limit : ℤ) : List Candle :=
  if 0 < limit then l.drop (l.length - limit.toNat)
  else if limit = 0 then l
  else l.drop (-limit).toNat

/-- `_fetch_kline_with_realtime`: merge the feed candles (`api_klines`, at
most 5 are requested) over the store history (`store` is the matching table
content ordered by timestamp descending; the query takes `db_limit limit` of
it), feed entries overwriting store entries with the same timestamp, then
sort by timestamp and truncate to the last `limit`.  The dict-conversion of
rows (nullable columns to 0) is treated as already applied to `store`. -/
def _fetch_kline_with_realtime (api_klines store : List Candle) (limit : ℤ) :
    List Candle :=
  let db_klines := store.take (db_limit limit).toNat
  let db_data := db_klines.foldl upsertByTs []
  let merged := api_klines.foldl upsertByTs db_data
  let sorted_klines := sortCandles merged
  if limit < (sorted_klines.length : ℤ) then pySliceLast sorted_klines limit
  else sorted_klines

/-! ### Theorems -/

example : calculate_direction 1 1 1 = DIRECTION_BULLISH := by decide
example : calculate_direction 1 1 (-1) = DIRECTION_NEUTRAL := by decide
example : calculate_direction 1 1 0 = DIRECTION_BULLISH := by decide
example : calculate_direction (-1) (-1) 0 = DIRECTION_BEARISH := by decide

/-! ### Helper lemmas on Python rounding -/

theorem round_half_even_nonneg (x : ℚ) (h : 0 ≤ x) : 0 ≤ round_half_even x := by
  have hn : 0 ≤ ⌊x⌋ := Int.floor_nonneg.mpr h
  simp only [round_half_even]
  split_ifs <;> omega

theorem round_half_even_le (x : ℚ) (m : ℤ) (h : x ≤ (m : ℚ)) : round_half_even x ≤ m := by
  have hf : ⌊x⌋ ≤ m := by simpa using Int.floor_le_floor h
  have hfx : (⌊x⌋ : ℚ) ≤ x := Int.floor_le x
  simp only [round_half_even]
  split_ifs with h1 h2 h3
  · exact hf
  · have key : (⌊x⌋ : ℚ) < (m : ℚ) := by linarith
    have : ⌊x⌋ < m := by exact_mod_cast key
    omega
  · exact hf
  · push_neg at h1
    have key : (⌊x⌋ : ℚ) < (m : ℚ) := by linarith
    have : ⌊x⌋ < m := by exact_mod_cast key
    omega

theorem round_py_nonneg (x : ℚ) (d : ℕ) (h : 0 ≤ x) : 0 ≤ round_py x d := by
  unfold round_py
  have h1 : 0 ≤ round_half_even (x * 10 ^ d) :=
    round_half_even_nonneg _ (by positivity)
  have h2 : (0 : ℚ) ≤ (round_half_even (x * 10 ^ d) : ℚ) := by exact_mod_cast h1
  positivity

theorem round_py_le_one (x : ℚ) (d : ℕ) (h : x ≤ 1) : round_py x d ≤ 1 := by
  unfold round_py
  have hp : (0 : ℚ) < 10 ^ d := by positivity
  have h1 : round_half_even (x * 10 ^ d) ≤ (10 : ℤ) ^ d := by
    apply round_half_even_le
    push_cast
    nlinarith
  rw [div_le_one hp]
  exact_mod_cast h1

/-! ### Bounds of the individual scorers (shared helpers) -/

theorem calculate_confidence_mem (a b c d : ℚ) :
    0 ≤ calculate_confidence a b c d ∧ calculate_confidence a b c d ≤ 1 := by
  simp only [calculate_confidence]
  exact ⟨le_max_left 0 _, max_le (by norm_num) (min_le_left _ _)⟩

theorem calculate_pattern_penalty_mem (r : String) (a p o q w : ℚ) :
    70/100 ≤ calculate_pattern_penalty r a p o q w ∧
      calculate_pattern_penalty r a p o q w ≤ 1 := by
  simp only [calculate_pattern_penalty]
  refine ⟨le_max_left _ _, max_le (by norm_num) ?_⟩
  split_ifs <;> norm_num

theorem direction_penalty_shape (r : String) (l : List ℤ) (u v : Bool) :
    85/100 ≤ (if l.length < 2 then (1 : ℚ)
      else if r = REGIME_BREAKOUT ∨ r = REGIME_CONTINUATION then (if u then 85/100 else 1)
      else if r = REGIME_ABSORPTION ∨ r = REGIME_TRAP then (if v then 88/100 else 1)
      else if r = REGIME_NOISE then 90/100
      else 1) ∧
    (if l.length < 2 then (1 : ℚ)
      else if r = REGIME_BREAKOUT ∨ r = REGIME_CONTINUATION then (if u then 85/100 else 1)
      else if r = REGIME_ABSORPTION ∨ r = REGIME_TRAP then (if v then 88/100 else 1)
      else if r = REGIME_NOISE then 90/100
      else 1) ≤ 1 := by
  split_ifs <;> norm_num

theorem calculate_direction_penalty_mem (r : String) (a p t : ℚ) :
    85/100 ≤ calculate_direction_penalty r a p t ∧
      calculate_direction_penalty r a p t ≤ 1 := by
  simp only [calculate_direction_penalty]
  exact direction_penalty_shape r _ _ _

/-- C2: the base confidence lies in [0,1], the pattern penalty in [0.70,1],
the direction penalty in [0.85,1], and the final confidence (their product,
rounded to 3 decimals) lies in [0,1], for all input magnitudes. -/
theorem final_confidence_in_unit_interval (regime : String)
    (cvd_ratio taker_log_ratio oi_delta price_atr rsi price_range_atr : ℚ) :
    (0 ≤ calculate_confidence cvd_ratio taker_log_ratio oi_delta price_atr ∧
      calculate_confidence cvd_ratio taker_log_ratio oi_delta price_atr ≤ 1) ∧
    (70/100 ≤ calculate_pattern_penalty regime cvd_ratio price_atr oi_delta rsi price_range_atr ∧
      calculate_pattern_penalty regime cvd_ratio price_atr oi_delta rsi price_range_atr ≤ 1) ∧
    (85/100 ≤ calculate_direction_penalty regime cvd_ratio price_atr taker_log_ratio ∧
      calculate_direction_penalty regime cvd_ratio price_atr taker_log_ratio ≤ 1) ∧
    (0 ≤ round_py (calculate_confidence cvd_ratio taker_log_ratio oi_delta price_atr *
            calculate_pattern_penalty regime cvd_ratio price_atr oi_delta rsi price_range_atr *
            calculate_direction_penalty regime cvd_ratio price_atr taker_log_ratio) 3 ∧
      round_py (calculate_confidence cvd_ratio taker_log_ratio oi_delta price_atr *
            calculate_pattern_penalty regime cvd_ratio price_atr oi_delta rsi price_range_atr *
            calculate_direction_penalty regime cvd_ratio price_atr taker_log_ratio) 3 ≤ 1) := by
  obtain ⟨hc0, hc1⟩ := calculate_confidence_mem cvd_ratio taker_log_ratio oi_delta price_atr
  obtain ⟨hp0, hp1⟩ :=
    calculate_pattern_penalty_mem regime cvd_ratio price_atr oi_delta rsi price_range_atr
  obtain ⟨hd0, hd1⟩ := calculate_direction_penalty_mem regime cvd_ratio price_atr taker_log_ratio
  have hprod0 : 0 ≤ calculate_confidence cvd_ratio taker_log_ratio oi_delta price_atr *
      calculate_pattern_penalty regime cvd_ratio price_atr oi_delta rsi price_range_atr *
      calculate_direction_penalty regime cvd_ratio price_atr taker_log_ratio := by
    apply mul_nonneg (mul_nonneg hc0 (by linarith)) (by linarith)
  have hprod1 : calculate_confidence cvd_ratio taker_log_ratio oi_delta price_atr *
      calculate_pattern_penalty regime cvd_ratio price_atr oi_delta rsi price_range_atr *
      calculate_direction_penalty regime cvd_ratio price_atr taker_log_ratio ≤ 1 := by
    exact mul_le_one₀ (mul_le_one₀ hc1 (by linarith) hp1) (by linarith) hd1
  exact ⟨⟨hc0, hc1⟩, ⟨hp0, hp1⟩, ⟨hd0, hd1⟩,
    round_py_nonneg _ _ hprod0, round_py_le_one _ _ hprod1⟩

set_option maxHeartbeats 2000000 in
/-- C1: totality of the classifier — for every input and config the regime
component of `classify_regime` is one of the seven labels. -/
theorem classify_regime_total (mathlog : ℚ → ℚ)
    (cvd_ratio taker_log_ratio oi_delta price_atr rsi price_range_atr : ℚ)
    (config : MarketRegimeConfig) :
    (classify_regime mathlog cvd_ratio taker_log_ratio oi_delta price_atr rsi
        price_range_atr config).1 ∈
      [REGIME_STOP_HUNT, REGIME_ABSORPTION, REGIME_BREAKOUT, REGIME_CONTINUATION,
        REGIME_EXHAUSTION, REGIME_TRAP, REGIME_NOISE] := by
  simp only [classify_regime]
  split_ifs <;>
    first
      | exact List.Mem.head _
      | exact List.Mem.tail _ (List.Mem.head _)
      | exact List.Mem.tail _ (List.Mem.tail _ (List.Mem.head _))
      | exact List.Mem.tail _ (List.Mem.tail _ (List.Mem.tail _ (List.Mem.head _)))
      | exact List.Mem.tail _ (List.Mem.tail _ (List.Mem.tail _ (List.Mem.tail _
          (List.Mem.head _))))
      | exact List.Mem.tail _ (List.Mem.tail _ (List.Mem.tail _ (List.Mem.tail _
          (List.Mem.tail _ (List.Mem.head _)))))
      | exact List.Mem.tail _ (List.Mem.tail _ (List.Mem.tail _ (List.Mem.tail _
          (List.Mem.tail _ (List.Mem.tail _ (List.Mem.head _))))))

/-- C4: the stop-hunt rule is the first match: whenever
`price_range_atr > config.stop_hunt_range_atr` and
`|price_atr| < config.stop_hunt_close_atr`, the classifier returns
`stop_hunt`, regardless of every other input. -/
theorem classify_regime_stop_hunt_first (mathlog : ℚ → ℚ)
    (cvd_ratio taker_log_ratio oi_delta price_atr rsi price_range_atr : ℚ)
    (config : MarketRegimeConfig)
    (h1 : price_range_atr > config.stop_hunt_range_atr)
    (h2 : |price_atr| < config.stop_hunt_close_atr) :
    (classify_regime mathlog cvd_ratio taker_log_ratio oi_delta price_atr rsi
        price_range_atr config).1 = REGIME_STOP_HUNT := by
  simp only [classify_regime]
  rw [if_pos ⟨h1, h2⟩]

/-- C4 witness: with `stop_hunt_range_atr = 1.5`, `stop_hunt_close_atr = 0.2`,
`price_range_atr = 2.0` and `price_atr = 0.05` the classifier returns
`stop_hunt`. -/
theorem classify_regime_stop_hunt_first_witness :
    (2 : ℚ) > (15/10 : ℚ) ∧ |(5/100 : ℚ)| < (2/10 : ℚ) ∧
    (classify_regime (fun q => q) 0 0 0 (5/100) 0 2
        ⟨0, 0, 0, 0, 0, 0, 0, 15/10, 2/10, 0, 0⟩).1 = REGIME_STOP_HUNT :=
  ⟨by norm_num, by rw [abs_of_nonneg] <;> norm_num,
    classify_regime_stop_hunt_first (fun q => q) 0 0 0 (5/100) 0 2
      ⟨0, 0, 0, 0, 0, 0, 0, 15/10, 2/10, 0, 0⟩
      (by norm_num) (by rw [abs_of_nonneg] <;> norm_num)⟩

/-- C5 counterexample: `cvd_ratio = 1` and `taker_log_ratio = 1` are both
strictly positive, yet with `price_atr = -1` the direction is `neutral`, not
`bullish` (the negative vote cancels one positive vote). -/
theorem calculate_direction_two_positive_not_bullish :
    (0 : ℚ) < 1 ∧ (0 : ℚ) < 1 ∧
      calculate_direction 1 1 (-1) = DIRECTION_NEUTRAL ∧
      calculate_direction 1 1 (-1) ≠ DIRECTION_BULLISH := by decide

/-- C5 amended: the vote returns `bullish` exactly when at least two of the
three signals are strictly positive and none is strictly negative, `bearish`
exactly when at least two are strictly negative and none is strictly
positive, and `neutral` otherwise. -/
theorem calculate_direction_vote (c t p : ℚ) :
    (calculate_direction c t p = DIRECTION_BULLISH ↔
      (((0 < c ∧ 0 < t) ∨ (0 < c ∧ 0 < p) ∨ (0 < t ∧ 0 < p)) ∧
        ¬ c < 0 ∧ ¬ t < 0 ∧ ¬ p < 0)) ∧
    (calculate_direction c t p = DIRECTION_BEARISH ↔
      (((c < 0 ∧ t < 0) ∨ (c < 0 ∧ p < 0) ∨ (t < 0 ∧ p < 0)) ∧
        ¬ 0 < c ∧ ¬ 0 < t ∧ ¬ 0 < p)) ∧
    (calculate_direction c t p = DIRECTION_NEUTRAL ↔
      (¬ (((0 < c ∧ 0 < t) ∨ (0 < c ∧ 0 < p) ∨ (0 < t ∧ 0 < p)) ∧
          ¬ c < 0 ∧ ¬ t < 0 ∧ ¬ p < 0) ∧
       ¬ (((c < 0 ∧ t < 0) ∨ (c < 0 ∧ p < 0) ∨ (t < 0 ∧ p < 0)) ∧
          ¬ 0 < c ∧ ¬ 0 < t ∧ ¬ 0 < p))) := by
  have tri : ∀ x : ℚ, (0 < x ∧ ¬ x < 0) ∨ (x < 0 ∧ ¬ 0 < x) ∨ (¬ 0 < x ∧ ¬ x < 0) := by
    intro x
    rcases lt_trichotomy x 0 with h | h | h
    · exact Or.inr (Or.inl ⟨h, h.asymm⟩)
    · exact Or.inr (Or.inr ⟨by simp [h], by simp [h]⟩)
    · exact Or.inl ⟨h, h.asymm⟩
  rcases tri c with ⟨hc1, hc2⟩ | ⟨hc1, hc2⟩ | ⟨hc1, hc2⟩ <;>
    rcases tri t with ⟨ht1, ht2⟩ | ⟨ht1, ht2⟩ | ⟨ht1, ht2⟩ <;>
    rcases tri p with ⟨hp1, hp2⟩ | ⟨hp1, hp2⟩ | ⟨hp1, hp2⟩ <;>
    simp [calculate_direction, DIRECTION_BULLISH, DIRECTION_BEARISH, DIRECTION_NEUTRAL,
      hc1, hc2, ht1, ht2, hp1, hp2]

/-- C3: if the flow collaborator returns no CVD entry or no TAKER entry, the
orchestrator short-circuits to regime `noise`, direction `neutral`,
confidence 0 with the diagnostic reason, regardless of the available candle
data. -/
theorem flow_absence_short_circuit (mathlog mathexp : ℚ → ℚ)
    (calculate_indicators : List Candle → List ℚ × List ℚ)
    (cfg : MarketRegimeConfig) (timeframe : String) (flow_data : FlowData)
    (kline_data : List Candle)
    (h : flow_data.CVD = none ∨ flow_data.TAKER = none) :
    get_market_regime mathlog mathexp calculate_indicators (some cfg) timeframe true
        flow_data kline_data =
      { regime := REGIME_NOISE, direction := DIRECTION_NEUTRAL, confidence := 0,
        reason := "Insufficient market flow data", indicators := none } := by
  rcases flow_data with ⟨cvd, taker, oi⟩
  rcases h with h | h <;> cases cvd <;> cases taker <;> simp_all [get_market_regime]

/-- C3 witness: a flow response with no CVD entry yields the insufficient-data
noise result even with candle data present. -/
theorem flow_absence_short_circuit_witness :
    ((⟨none, some ⟨some 1, some 1⟩, none⟩ : FlowData).CVD = none ∨
      (⟨none, some ⟨some 1, some 1⟩, none⟩ : FlowData).TAKER = none) ∧
    get_market_regime (fun q => q) (fun q => q) (fun _ => ([1], [50]))
        (some ⟨1, 1, 1, 1, 1, 1, 1, 1, 1, 1, 1⟩) "5m" true
        ⟨none, some ⟨some 1, some 1⟩, none⟩ [⟨0, 1, 2, 0, 1, 5⟩] =
      { regime := REGIME_NOISE, direction := DIRECTION_NEUTRAL, confidence := 0,
        reason := "Insufficient market flow data", indicators := none } :=
  ⟨Or.inl rfl,
    flow_absence_short_circuit (fun q => q) (fun q => q) (fun _ => ([1], [50]))
      ⟨1, 1, 1, 1, 1, 1, 1, 1, 1, 1, 1⟩ "5m" ⟨none, some ⟨some 1, some 1⟩, none⟩
      [⟨0, 1, 2, 0, 1, 5⟩] (Or.inl rfl)⟩

/-- C6: with fewer than 15 candles the price-metric deriver returns exactly
`price_atr = 0`, `price_range_atr = 0`, `rsi = 50`, whatever the indicator
library would compute. -/
theorem calculate_price_metrics_short_input
    (calculate_indicators : List Candle → List ℚ × List ℚ)
    (kline_data : List Candle) (h : kline_data.length < 15) :
    calculate_price_metrics calculate_indicators kline_data = ⟨0, 0, 50⟩ := by
  simp only [calculate_price_metrics]
  rw [if_pos h]

/-- C6 witness: the empty candle list (length 0 < 15) yields the default
metrics, even against an indicator library that would return data. -/
theorem calculate_price_metrics_short_input_witness :
    ([] : List Candle).length < 15 ∧
    calculate_price_metrics (fun _ => ([3], [70])) [] = ⟨0, 0, 50⟩ :=
  ⟨by decide, calculate_price_metrics_short_input (fun _ => ([3], [70])) [] (by decide)⟩

/-- C7: the division-hazard guards.  (1) when `taker_buy + taker_sell` is not
strictly positive, `cvd_ratio` is exactly 0; (2) when `taker_buy` or
`taker_sell` is not strictly positive, `taker_log_ratio` is exactly 0; (3)
when the latest ATR value is 0 or unavailable, `price_atr` and
`price_range_atr` are both exactly 0. -/
theorem division_hazard_guards (mathlog : ℚ → ℚ)
    (calculate_indicators : List Candle → List ℚ × List ℚ)
    (cvd_current taker_buy taker_sell : ℚ) (kline_data : List Candle) :
    (taker_buy + taker_sell ≤ 0 →
      cvd_ratio_of cvd_current taker_buy taker_sell = 0) ∧
    (¬ (taker_buy > 0 ∧ taker_sell > 0) →
      taker_log_ratio_of mathlog taker_buy taker_sell = 0) ∧
    ((calculate_indicators kline_data).1.getLast? = none ∨
        (calculate_indicators kline_data).1.getLast? = some 0 →
      (calculate_price_metrics calculate_indicators kline_data).price_atr = 0 ∧
      (calculate_price_metrics calculate_indicators kline_data).price_range_atr = 0) := by
  refine ⟨?_, ?_, ?_⟩
  · intro h
    simp only [cvd_ratio_of]
    rw [if_neg (by linarith)]
  · intro h
    simp only [taker_log_ratio_of]
    rw [if_neg h]
  · intro h
    simp only [calculate_price_metrics]
    split_ifs with h1 h2
    · exact ⟨rfl, rfl⟩
    · exfalso
      rcases h with h | h <;> rw [h] at h2 <;> simp at h2
    · exact ⟨rfl, rfl⟩

/-- C10: a flow response with CVD and TAKER present but OI_DELTA absent (or
present without a `current` value) is not short-circuited: the orchestrator
runs the full pipeline with `oi_delta = 0`. -/
theorem missing_oi_delta_runs_pipeline (mathlog mathexp : ℚ → ℚ)
    (calculate_indicators : List Candle → List ℚ × List ℚ)
    (cfg : MarketRegimeConfig) (timeframe : String)
    (cvd_data : CvdEntry) (taker_data : TakerEntry) (oi : Option OiEntry)
    (kline_data : List Candle)
    (h : oi = none ∨ oi = some ⟨none⟩) :
    get_market_regime mathlog mathexp calculate_indicators (some cfg) timeframe true
        ⟨some cvd_data, some taker_data, oi⟩ kline_data =
      regime_pipeline mathlog mathexp calculate_indicators cfg
        (cvd_ratio_of (cvd_data.current.getD 0) (taker_data.buy.getD 0)
          (taker_data.sell.getD 0))
        (taker_log_ratio_of mathlog (taker_data.buy.getD 0) (taker_data.sell.getD 0))
        0 kline_data := by
  rcases h with rfl | rfl <;> rfl

/-- C10 witness: OI_DELTA absent, CVD and TAKER present: the result is the
full pipeline at `oi_delta = 0` (and in particular not the insufficient-data
noise result). -/
theorem missing_oi_delta_runs_pipeline_witness :
    ((none : Option OiEntry) = none ∨ (none : Option OiEntry) = some ⟨none⟩) ∧
    get_market_regime (fun q => q) (fun q => q) (fun _ => ([], []))
        (some ⟨1, 1, 1, 1, 1, 1, 1, 1, 1, 1, 1⟩) "5m" true
        ⟨some ⟨some 1⟩, some ⟨some 2, some 2⟩, none⟩ [] =
      regime_pipeline (fun q => q) (fun q => q) (fun _ => ([], []))
        ⟨1, 1, 1, 1, 1, 1, 1, 1, 1, 1, 1⟩
        (cvd_ratio_of 1 2 2) (taker_log_ratio_of (fun q => q) 2 2) 0 [] :=
  ⟨Or.inl rfl,
    missing_oi_delta_runs_pipeline (fun q => q) (fun q => q) (fun _ => ([], []))
      ⟨1, 1, 1, 1, 1, 1, 1, 1, 1, 1, 1⟩ "5m" ⟨some 1⟩ ⟨some 2, some 2⟩ none []
      (Or.inl rfl)⟩

theorem mem_insertByTs {a r : FlowRecord} {l : List FlowRecord} :
    a ∈ insertByTs r l ↔ a = r ∨ a ∈ l := by
  induction l with
  | nil => simp [insertByTs]
  | cons x xs ih =>
    simp only [insertByTs]
    split_ifs
    · simp [List.mem_cons]
    · simp only [List.mem_cons, ih]
      tauto

theorem mem_sortByTs {a : FlowRecord} {l : List FlowRecord} :
    a ∈ sortByTs l ↔ a ∈ l := by
  induction l with
  | nil => simp [sortByTs]
  | cons x xs ih => simp [sortByTs, mem_insertByTs, ih]

theorem insertByTs_front {r : FlowRecord} {l : List FlowRecord}
    (h : ∀ x ∈ l, r.timestamp ≤ x.timestamp) : insertByTs r l = r :: l := by
  cases l with
  | nil => rfl
  | cons x xs =>
    simp only [insertByTs]
    rw [if_pos (h x (by simp))]

theorem sortByTs_eq_self {l : List FlowRecord}
    (h : l.Pairwise (fun a b => a.timestamp ≤ b.timestamp)) : sortByTs l = l := by
  induction l with
  | nil => rfl
  | cons x xs ih =>
    rw [List.pairwise_cons] at h
    simp only [sortByTs, ih h.2]
    exact insertByTs_front h.1

theorem ohlcBuckets_succ (queried : List FlowRecord) (end_ts period_ms : ℤ) (n : ℕ) :
    ohlcBuckets queried end_ts period_ms (n + 1) =
      (if (queried.filter (fun r =>
          decide (Int.fdiv (end_ts - r.timestamp) period_ms = (n : ℤ)))).isEmpty
        then []
        else [aggregateBucket (end_ts - ((n : ℤ) + 1) * period_ms)
          (queried.filter (fun r =>
            decide (Int.fdiv (end_ts - r.timestamp) period_ms = (n : ℤ))))]) ++
      ohlcBuckets queried end_ts period_ms n := rfl

theorem ohlcBuckets_cons_out (r : FlowRecord) (l : List FlowRecord)
    (end_ts period_ms : ℤ) (n : ℕ)
    (h : ∀ k : ℕ, k < n → Int.fdiv (end_ts - r.timestamp) period_ms ≠ (k : ℤ)) :
    ohlcBuckets (r :: l) end_ts period_ms n = ohlcBuckets l end_ts period_ms n := by
  induction n with
  | zero => rfl
  | succ m ih =>
    rw [ohlcBuckets_succ, ohlcBuckets_succ]
    rw [List.filter_cons_of_neg
      (by simp only [decide_eq_true_eq]; exact h m (Nat.lt_succ_self m))]
    rw [ih (fun k hk => h k (Nat.lt_succ_of_lt hk))]

theorem ohlcBuckets_single (l : List FlowRecord) (end_ts period_ms : ℤ)
    (hne : l ≠ [])
    (h0 : ∀ r ∈ l, Int.fdiv (end_ts - r.timestamp) period_ms = 0) (k : ℕ) :
    ohlcBuckets l end_ts period_ms (k + 1) =
      [aggregateBucket (end_ts - period_ms) l] := by
  induction k with
  | zero =>
    rw [ohlcBuckets_succ]
    have hf : (l.filter fun r =>
        decide (Int.fdiv (end_ts - r.timestamp) period_ms = ((0 : ℕ) : ℤ))) = l := by
      apply List.filter_eq_self.mpr
      intro r hr
      simp [h0 r hr]
    rw [hf]
    rw [if_neg (by simp [List.isEmpty_iff]; exact hne)]
    simp only [ohlcBuckets, Nat.cast_zero, zero_add, one_mul, List.append_nil]
  | succ j ih =>
    rw [ohlcBuckets_succ]
    have hf : (l.filter fun r =>
        decide (Int.fdiv (end_ts - r.timestamp) period_ms = ((j + 1 : ℕ) : ℤ))) = [] := by
      apply List.filter_eq_nil_iff.mpr
      intro r hr
      simp only [decide_eq_true_eq, h0 r hr]
      intro hc
      have : ((j + 1 : ℕ) : ℤ) ≠ 0 := by exact_mod_cast Nat.succ_ne_zero j
      exact this hc.symm
    rw [hf]
    simpa using ih

/-- C8: single-bucket aggregation.  For a non-empty, strictly
timestamp-increasing set of records with positive vwap/high/low, all lying in
the one interval immediately preceding the anchor, the bucketer produces
exactly one candle, whose open is the earliest record's vwap, whose close is
the latest record's vwap and whose volume is the summed buy+sell notional;
and a record at or beyond `limit × period` before the anchor contributes to
no candle. -/
theorem fetch_ohlc_single_bucket (records : List FlowRecord)
    (period_ms current_time_ms : ℤ) (limit : ℕ)
    (hperiod : 0 < period_ms) (hlimit : 1 ≤ limit) (hne : records ≠ [])
    (hsorted : records.Pairwise (fun a b => a.timestamp < b.timestamp))
    (hin : ∀ r ∈ records, current_time_ms - period_ms < r.timestamp ∧
      r.timestamp < current_time_ms)
    (hpos : ∀ r ∈ records, 0 < r.vwap.getD 0 ∧ 0 < r.high_price.getD 0 ∧
      0 < r.low_price.getD 0) :
    (fetch_ohlc_from_flow records period_ms limit current_time_ms).length = 1 ∧
    (∀ c ∈ fetch_ohlc_from_flow records period_ms limit current_time_ms,
      c.open_ = (records.head?.getD dummyRecord).vwap.getD 0 ∧
      c.close = (records.getLast?.getD dummyRecord).vwap.getD 0 ∧
      c.volume = (records.map
        (fun r => r.taker_buy_notional.getD 0 + r.taker_sell_notional.getD 0)).sum) ∧
    (∀ r : FlowRecord, r.timestamp ≤ current_time_ms - (limit : ℤ) * period_ms →
      fetch_ohlc_from_flow (r :: records) period_ms limit current_time_ms =
        fetch_ohlc_from_flow records period_ms limit current_time_ms) := by
  have hlim1 : (1 : ℤ) ≤ (limit : ℤ) := by exact_mod_cast hlimit
  have hstart : current_time_ms - (limit : ℤ) * period_ms ≤ current_time_ms - period_ms := by
    have h2 : period_ms ≤ (limit : ℤ) * period_ms := le_mul_of_one_le_left hperiod.le hlim1
    omega
  have hfilter : records.filter (fun r =>
      decide (current_time_ms - (limit : ℤ) * period_ms ≤ r.timestamp ∧
        r.timestamp < current_time_ms)) = records := by
    apply List.filter_eq_self.mpr
    intro r hr
    rcases hin r hr with ⟨h1, h2⟩
    simp only [decide_eq_true_eq]
    exact ⟨by omega, h2⟩
  have hsort : sortByTs records = records := sortByTs_eq_self (hsorted.imp le_of_lt)
  have hidx : ∀ r ∈ records, Int.fdiv (current_time_ms - r.timestamp) period_ms = 0 := by
    intro r hr
    rcases hin r hr with ⟨h1, h2⟩
    rw [Int.fdiv_eq_ediv _ hperiod.le]
    exact Int.ediv_eq_zero_of_lt (by omega) (by omega)
  obtain ⟨k, rfl⟩ : ∃ k, limit = k + 1 := ⟨limit - 1, by omega⟩
  have hrecs : ohlcBuckets records current_time_ms period_ms (k + 1) =
      [aggregateBucket (current_time_ms - period_ms) records] :=
    ohlcBuckets_single records _ _ hne hidx k
  have hdef : fetch_ohlc_from_flow records period_ms (k + 1) current_time_ms =
      ohlcBuckets (sortByTs (records.filter (fun r =>
        decide (current_time_ms - ((k + 1 : ℕ) : ℤ) * period_ms ≤ r.timestamp ∧
          r.timestamp < current_time_ms)))) current_time_ms period_ms (k + 1) := rfl
  have hfetch : fetch_ohlc_from_flow records period_ms (k + 1) current_time_ms =
      [aggregateBucket (current_time_ms - period_ms) records] := by
    rw [hdef, hfilter, hsort, hrecs]
  refine ⟨by rw [hfetch]; rfl, ?_, ?_⟩
  · intro c hc
    rw [hfetch] at hc
    simp only [List.mem_singleton] at hc
    subst hc
    refine ⟨?_, ?_, ?_⟩ <;> simp only [aggregateBucket, hsort]
  · intro r hr
    have hdef1 : fetch_ohlc_from_flow (r :: records) period_ms (k + 1) current_time_ms =
        ohlcBuckets (sortByTs ((r :: records).filter (fun x =>
          decide (current_time_ms - ((k + 1 : ℕ) : ℤ) * period_ms ≤ x.timestamp ∧
            x.timestamp < current_time_ms)))) current_time_ms period_ms (k + 1) := rfl
    by_cases hlt : r.timestamp < current_time_ms - ((k + 1 : ℕ) : ℤ) * period_ms
    · rw [hdef1, List.filter_cons_of_neg (by simp only [decide_eq_true_eq]; omega)]
      rfl
    · have heq : r.timestamp = current_time_ms - ((k + 1 : ℕ) : ℤ) * period_ms :=
        le_antisymm hr (not_lt.mp hlt)
      have hklp : (0 : ℤ) < ((k + 1 : ℕ) : ℤ) * period_ms :=
        mul_pos (by exact_mod_cast Nat.succ_pos k) hperiod
      rw [hdef1, List.filter_cons_of_pos
        (by simp only [decide_eq_true_eq]; exact ⟨by omega, by omega⟩)]
      rw [hfilter]
      have hsr : sortByTs (r :: records) = r :: records := by
        show insertByTs r (sortByTs records) = r :: records
        rw [hsort]
        apply insertByTs_front
        intro x hx
        rcases hin x hx with ⟨h1, _⟩
        linarith [hstart]
      rw [hsr]
      have hfd : Int.fdiv (current_time_ms - r.timestamp) period_ms = ((k + 1 : ℕ) : ℤ) := by
        rw [heq]
        have : current_time_ms - (current_time_ms - ((k + 1 : ℕ) : ℤ) * period_ms) =
            ((k + 1 : ℕ) : ℤ) * period_ms := by ring
        rw [this, Int.fdiv_eq_ediv _ hperiod.le, Int.mul_ediv_cancel _ hperiod.ne.symm]
      rw [ohlcBuckets_cons_out r records _ _ _ (fun j hj => by
        rw [hfd]
        intro hcontra
        have : ((j : ℤ)) < ((k + 1 : ℕ) : ℤ) := by exact_mod_cast hj
        omega)]
      rw [hrecs, hfetch]

/-- C8 witness: two records (timestamps 500 and 900) inside the single
interval (0, 1000) preceding anchor 1000 with period 1000 yield one candle
with open 10, close 11 and volume 3+4+5+6, and any record at or beyond
15 × 1000 before the anchor changes nothing. -/
theorem fetch_ohlc_single_bucket_witness :
    (fetch_ohlc_from_flow
        [⟨500, some 10, some 12, some 9, some 3, some 4⟩,
         ⟨900, some 11, some 13, some 8, some 5, some 6⟩] 1000 15 1000).length = 1 ∧
    (∀ c ∈ fetch_ohlc_from_flow
        [⟨500, some 10, some 12, some 9, some 3, some 4⟩,
         ⟨900, some 11, some 13, some 8, some 5, some 6⟩] 1000 15 1000,
      c.open_ = (([⟨500, some 10, some 12, some 9, some 3, some 4⟩,
          ⟨900, some 11, some 13, some 8, some 5, some 6⟩] :
            List FlowRecord).head?.getD dummyRecord).vwap.getD 0 ∧
      c.close = (([⟨500, some 10, some 12, some 9, some 3, some 4⟩,
          ⟨900, some 11, some 13, some 8, some 5, some 6⟩] :
            List FlowRecord).getLast?.getD dummyRecord).vwap.getD 0 ∧
      c.volume = (([⟨500, some 10, some 12, some 9, some 3, some 4⟩,
          ⟨900, some 11, some 13, some 8, some 5, some 6⟩] : List FlowRecord).map
        (fun r => r.taker_buy_notional.getD 0 + r.taker_sell_notional.getD 0)).sum) ∧
    (∀ r : FlowRecord, r.timestamp ≤ 1000 - ((15 : ℕ) : ℤ) * 1000 →
      fetch_ohlc_from_flow (r ::
          [⟨500, some 10, some 12, some 9, some 3, some 4⟩,
           ⟨900, some 11, some 13, some 8, some 5, some 6⟩]) 1000 15 1000 =
        fetch_ohlc_from_flow
          [⟨500, some 10, some 12, some 9, some 3, some 4⟩,
           ⟨900, some 11, some 13, some 8, some 5, some 6⟩] 1000 15 1000) :=
  fetch_ohlc_single_bucket
    [⟨500, some 10, some 12, some 9, some 3, some 4⟩,
     ⟨900, some 11, some 13, some 8, some 5, some 6⟩] 1000 1000 15
    (by decide) (by decide) (by decide) (by decide) (by decide) (by decide)

theorem mem_upsertByTs {x c : Candle} {m : List Candle}
    (h : x ∈ upsertByTs m c) : x = c ∨ (x ∈ m ∧ x.timestamp ≠ c.timestamp) := by
  simp only [upsertByTs] at h
  split_ifs at h with hany
  · rw [List.mem_map] at h
    obtain ⟨y, hy, hxy⟩ := h
    by_cases hts : y.timestamp == c.timestamp
    · rw [if_pos hts] at hxy
      exact Or.inl hxy.symm
    · rw [if_neg hts] at hxy
      subst hxy
      exact Or.inr ⟨hy, by simpa using hts⟩
  · rw [List.mem_append, List.mem_singleton] at h
    rcases h with h | h
    · refine Or.inr ⟨h, ?_⟩
      rw [Bool.not_eq_true, List.any_eq_false] at hany
      simpa using hany x h
    · exact Or.inl h

theorem mem_foldl_upsert {x : Candle} : ∀ (as : List Candle) (m : List Candle),
    x ∈ as.foldl upsertByTs m →
      x ∈ as ∨ (x ∈ m ∧ ∀ a ∈ as, x.timestamp ≠ a.timestamp)
  | [], m, h => Or.inr ⟨h, by simp⟩
  | a :: as, m, h => by
    rcases mem_foldl_upsert as (upsertByTs m a) h with h1 | ⟨h1, h2⟩
    · exact Or.inl (List.mem_cons_of_mem a h1)
    · rcases mem_upsertByTs h1 with h3 | ⟨h3, h4⟩
      · exact Or.inl (h3 ▸ List.mem_cons_self a as)
      · refine Or.inr ⟨h3, ?_⟩
        intro b hb
        rcases List.mem_cons.mp hb with rfl | hb
        · exact h4
        · exact h2 b hb

/-- Keys of the dict are unchanged by a replacing upsert and extended by a
fresh one; either way key-distinctness is preserved. -/
theorem nodup_keys_upsertByTs {m : List Candle} {c : Candle}
    (h : (m.map (fun x => x.timestamp)).Nodup) :
    ((upsertByTs m c).map (fun x => x.timestamp)).Nodup := by
  simp only [upsertByTs]
  split_ifs with hany
  · have : ((m.map (fun x => if x.timestamp == c.timestamp then c else x)).map
        (fun x => x.timestamp)) = m.map (fun x => x.timestamp) := by
      rw [List.map_map]
      apply List.map_congr_left
      intro x _
      by_cases hts : x.timestamp == c.timestamp
      · simp only [Function.comp, if_pos hts]
        exact (eq_of_beq hts).symm
      · simp only [Function.comp, if_neg hts]
    rw [this]
    exact h
  · rw [List.map_append, List.map_singleton]
    apply List.Nodup.append h (List.nodup_singleton _)
    intro t ht1 ht2
    rw [List.mem_singleton] at ht2
    subst ht2
    rw [Bool.not_eq_true, List.any_eq_false] at hany
    rw [List.mem_map] at ht1
    obtain ⟨y, hy, hyt⟩ := ht1
    exact absurd hyt (by simpa using hany y hy)

theorem nodup_keys_foldl_upsert : ∀ (as m : List Candle),
    (m.map (fun x => x.timestamp)).Nodup →
    ((as.foldl upsertByTs m).map (fun x => x.timestamp)).Nodup
  | [], _, h => h
  | a :: as, m, h => nodup_keys_foldl_upsert as _ (nodup_keys_upsertByTs h)

theorem mem_insertCandleByTs {a c : Candle} {l : List Candle} :
    a ∈ insertCandleByTs c l ↔ a = c ∨ a ∈ l := by
  induction l with
  | nil => simp [insertCandleByTs]
  | cons x xs ih =>
    simp only [insertCandleByTs]
    split_ifs
    · simp [List.mem_cons]
    · simp only [List.mem_cons, ih]
      tauto

theorem perm_insertCandleByTs (c : Candle) (l : List Candle) :
    (insertCandleByTs c l).Perm (c :: l) := by
  induction l with
  | nil => rfl
  | cons x xs ih =>
    simp only [insertCandleByTs]
    split_ifs
    · rfl
    · exact (ih.cons x).trans (List.Perm.swap c x xs)

theorem perm_sortCandles (l : List Candle) : (sortCandles l).Perm l := by
  induction l with
  | nil => rfl
  | cons x xs ih => exact (perm_insertCandleByTs x (sortCandles xs)).trans (ih.cons x)

theorem sorted_insertCandleByTs {c : Candle} {l : List Candle}
    (h : l.Pairwise (fun a b => a.timestamp ≤ b.timestamp)) :
    (insertCandleByTs c l).Pairwise (fun a b => a.timestamp ≤ b.timestamp) := by
  induction l with
  | nil => simp [insertCandleByTs]
  | cons x xs ih =>
    rw [List.pairwise_cons] at h
    simp only [insertCandleByTs]
    split_ifs with hle
    · rw [List.pairwise_cons]
      refine ⟨?_, List.pairwise_cons.mpr h⟩
      intro y hy
      rcases List.mem_cons.mp hy with rfl | hy
      · exact hle
      · exact le_trans hle (h.1 y hy)
    · rw [List.pairwise_cons]
      refine ⟨?_, ih h.2⟩
      intro y hy
      rcases mem_insertCandleByTs.mp hy with rfl | hy
      · exact le_of_not_le hle
      · exact h.1 y hy

theorem sorted_sortCandles (l : List Candle) :
    (sortCandles l).Pairwise (fun a b => a.timestamp ≤ b.timestamp) := by
  induction l with
  | nil => simp [sortCandles]
  | cons x xs ih => exact sorted_insertCandleByTs ih

theorem pairwise_lt_of_le_nodup {l : List Candle}
    (h1 : l.Pairwise (fun a b => a.timestamp ≤ b.timestamp))
    (h2 : (l.map (fun x => x.timestamp)).Nodup) :
    l.Pairwise (fun a b => a.timestamp < b.timestamp) := by
  have h3 : l.Pairwise (fun a b => a.timestamp ≠ b.timestamp) := List.pairwise_map.mp h2
  exact (h1.and h3).imp (fun h => lt_of_le_of_ne h.1 h.2)

/-- C9: contract of the hybrid real-time merge.  For a requested count above
the 5-candle feed window: the output is strictly increasing in timestamp, has
length at most `limit`, the store window `db_limit limit` equals `limit`
(hence exceeds the 5-candle feed window), and every output candle is either a
feed candle or a store candle whose timestamp collides with no feed candle
(on a collision the feed candle replaces the store one). -/
theorem fetch_kline_with_realtime_contract (api_klines store : List Candle)
    (limit : ℤ) (hlimit : 5 < limit) :
    (_fetch_kline_with_realtime api_klines store limit).Pairwise
      (fun a b => a.timestamp < b.timestamp) ∧
    ((_fetch_kline_with_realtime api_klines store limit).length : ℤ) ≤ limit ∧
    (db_limit limit = limit ∧ 5 < db_limit limit) ∧
    (∀ c ∈ _fetch_kline_with_realtime api_klines store limit,
      c ∈ api_klines ∨ (c ∈ store ∧ ∀ a ∈ api_klines, c.timestamp ≠ a.timestamp)) := by
  have hdbl : db_limit limit = limit := max_eq_right (by omega)
  have hnodup_db : (((store.take (db_limit limit).toNat).foldl upsertByTs []).map
      (fun x => x.timestamp)).Nodup :=
    nodup_keys_foldl_upsert _ [] (by simp)
  have hnodup : ((api_klines.foldl upsertByTs
      ((store.take (db_limit limit).toNat).foldl upsertByTs [])).map
      (fun x => x.timestamp)).Nodup :=
    nodup_keys_foldl_upsert _ _ hnodup_db
  have hperm := perm_sortCandles (api_klines.foldl upsertByTs
    ((store.take (db_limit limit).toNat).foldl upsertByTs []))
  have hnodup_sorted : ((sortCandles (api_klines.foldl upsertByTs
      ((store.take (db_limit limit).toNat).foldl upsertByTs []))).map
      (fun x => x.timestamp)).Nodup :=
    ((hperm.map (fun x => x.timestamp)).nodup_iff).mpr hnodup
  have hstrict : (sortCandles (api_klines.foldl upsertByTs
      ((store.take (db_limit limit).toNat).foldl upsertByTs []))).Pairwise
      (fun a b => a.timestamp < b.timestamp) :=
    pairwise_lt_of_le_nodup (sorted_sortCandles _) hnodup_sorted
  have hmem : ∀ c ∈ sortCandles (api_klines.foldl upsertByTs
      ((store.take (db_limit limit).toNat).foldl upsertByTs [])),
      c ∈ api_klines ∨ (c ∈ store ∧ ∀ a ∈ api_klines, c.timestamp ≠ a.timestamp) := by
    intro c hc
    rw [hperm.mem_iff] at hc
    rcases mem_foldl_upsert _ _ hc with h1 | ⟨h1, h2⟩
    · exact Or.inl h1
    · rcases mem_foldl_upsert _ _ h1 with h3 | ⟨h3, _⟩
      · exact Or.inr ⟨List.take_subset _ _ h3, h2⟩
      · simp at h3
  have hdef : _fetch_kline_with_realtime api_klines store limit =
      (if limit < ((sortCandles (api_klines.foldl upsertByTs
          ((store.take (db_limit limit).toNat).foldl upsertByTs []))).length : ℤ) then
        pySliceLast (sortCandles (api_klines.foldl upsertByTs
          ((store.take (db_limit limit).toNat).foldl upsertByTs []))) limit
      else sortCandles (api_klines.foldl upsertByTs
        ((store.take (db_limit limit).toNat).foldl upsertByTs []))) := rfl
  rw [hdef]
  split_ifs with hlen
  · rw [pySliceLast, if_pos (by omega)]
    refine ⟨List.Pairwise.sublist (List.drop_sublist _ _) hstrict, ?_, ⟨hdbl, by omega⟩, ?_⟩
    · rw [List.length_drop]
      have h1 : limit.toNat ≤ (sortCandles (api_klines.foldl upsertByTs
          ((store.take (db_limit limit).toNat).foldl upsertByTs []))).length := by omega
      omega
    · intro c hc
      exact hmem c ((List.drop_sublist _ _).subset hc)
  · exact ⟨hstrict, by omega, ⟨hdbl, by omega⟩, hmem⟩

/-- C9 witness: one feed candle colliding at timestamp 100 with a store
candle, plus an older store candle, at limit 6: the merge is strictly
sorted, within the limit, the store window equals the limit (greater than the
5-candle feed window), and the collision is resolved in favour of the feed. -/
theorem fetch_kline_with_realtime_contract_witness :
    (_fetch_kline_with_realtime [⟨100, 1, 1, 1, 1, 1⟩]
        [⟨100, 2, 2, 2, 2, 2⟩, ⟨50, 3, 3, 3, 3, 3⟩] 6).Pairwise
      (fun a b => a.timestamp < b.timestamp) ∧
    ((_fetch_kline_with_realtime [⟨100, 1, 1, 1, 1, 1⟩]
        [⟨100, 2, 2, 2, 2, 2⟩, ⟨50, 3, 3, 3, 3, 3⟩] 6).length : ℤ) ≤ 6 ∧
    (db_limit 6 = 6 ∧ 5 < db_limit 6) ∧
    (∀ c ∈ _fetch_kline_with_realtime [⟨100, 1, 1, 1, 1, 1⟩]
        [⟨100, 2, 2, 2, 2, 2⟩, ⟨50, 3, 3, 3, 3, 3⟩] 6,
      c ∈ [(⟨100, 1, 1, 1, 1, 1⟩ : Candle)] ∨
        (c ∈ [(⟨100, 2, 2, 2, 2, 2⟩ : Candle), ⟨50, 3, 3, 3, 3, 3⟩] ∧
          ∀ a ∈ [(⟨100, 1, 1, 1, 1, 1⟩ : Candle)], c.timestamp ≠ a.timestamp)) :=
  fetch_kline_with_realtime_contract [⟨100, 1, 1, 1, 1, 1⟩]
    [⟨100, 2, 2, 2, 2, 2⟩, ⟨50, 3, 3, 3, 3, 3⟩] 6 (by norm_num)
